import Mathlib

/-!
Verification of the streaming-MDC demo repository.

Part 1 embeds the reveal engine: the `useStreamingText` hook of `App.tsx`.
The hook state consists of the React state variables `streamedText`,
`isStreaming`, `isPaused`, the mutable ref `indexRef`, and the interval
handle `intervalRef` (abstracted to a Boolean `intervalActive`, since only
its nullness is ever observed). The interval callback is modelled by `tick`,
parametrised by the random draw: `Math.floor(Math.random() * 3)` is a value
in 0..2, modelled as `r % 3` for an arbitrary natural `r`.

Part 2 embeds the renderer: `renderNode` of `MDCRenderer.tsx` over the
`MDCNode` interface of `mdc-parser.ts`. JavaScript code may throw, so the
render walk returns `Except String RNode`; a thrown exception would be an
`Except.error`. All field accesses in the source are optional-guarded, which
is exactly what the totality theorem for claim C2 establishes.
-/

namespace StreamingText

/-- State of the `useStreamingText` hook: the two flags, the revealed text,
the character index ref, and whether an interval is currently scheduled. -/
structure EngineState where
  streamedText : String
  isStreaming : Bool
  isPaused : Bool
  index : Nat
  intervalActive : Bool
  deriving DecidableEq, Repr

/-- Initial hook state: `useState('')`, `useState(false)`, `useState(false)`,
`useRef(0)`, `useRef(null)`. -/
def initState : EngineState :=
  ⟨"", false, false, 0, false⟩

/-- `stop`: clear the interval, `setIsStreaming(false)`, `setIsPaused(false)`. -/
def stop (s : EngineState) : EngineState :=
  { s with intervalActive := false, isStreaming := false, isPaused := false }

/-- `start`: `stop()`, clear the text, reset the index, set streaming,
clear paused, and schedule the interval. -/
def start (s : EngineState) : EngineState :=
  let s1 := stop s
  { s1 with streamedText := "", index := 0, isStreaming := true, isPaused := false, intervalActive := true }

/-- One firing of the interval callback (from `start` or `resume`; both have
the identical body). It can only fire while an interval is scheduled. If
`indexRef.current < fullText.length` it advances by a chunk of
`Math.floor(Math.random()*3) + 1` characters, clamped with `Math.min`;
otherwise it calls `stop()`. The random draw is the parameter `r`. -/
def tick (full : String) (r : Nat) (s : EngineState) : EngineState :=
  if s.intervalActive then
    if s.index < full.length then
      let chunkSize := r % 3 + 1
      let nextIndex := min (s.index + chunkSize) full.length
      { s with streamedText := full.take nextIndex, index := nextIndex }
    else
      stop s
  else
    s

/-- `pause`: clear the interval if scheduled, then `setIsPaused(true)`
unconditionally (the source guards only the `clearInterval`, not the flag). -/
def pause (s : EngineState) : EngineState :=
  { s with intervalActive := false, isPaused := true }

/-- `resume`: return immediately unless paused; otherwise clear the paused
flag and schedule the interval again (same callback as `start`). -/
def resume (s : EngineState) : EngineState :=
  if s.isPaused then
    { s with isPaused := false, intervalActive := true }
  else
    s

/-- `reset`: `stop()`, clear the text, reset the index. -/
def reset (s : EngineState) : EngineState :=
  let s1 := stop s
  { s1 with streamedText := "", index := 0 }

/-- `complete`: `stop()`, reveal the whole text, move the index to the end. -/
def complete (full : String) (s : EngineState) : EngineState :=
  let s1 := stop s
  { s1 with streamedText := full, index := full.length }

/-- `progress`: `fullText.length > 0 ? (indexRef.current / fullText.length) * 100 : 0`,
with JavaScript number division modelled over the rationals. -/
def progress (full : String) (s : EngineState) : ℚ :=
  if full.length > 0 then ((s.index : ℚ) / (full.length : ℚ)) * 100 else 0

/-- The operations a caller (or the scheduler) can apply to the hook. -/
inductive Op where
  | start : Op
  | pause : Op
  | resume : Op
  | reset : Op
  | complete : Op
  | tick (r : Nat) : Op
  deriving DecidableEq, Repr

/-- Apply one operation to the hook state. -/
def applyOp (full : String) (op : Op) (s : EngineState) : EngineState :=
  match op with
  | .start => start s
  | .pause => pause s
  | .resume => resume s
  | .reset => reset s
  | .complete => complete full s
  | .tick r => tick full r s

/-- Run a sequence of operations from the initial hook state. -/
def run (full : String) (ops : List Op) : EngineState :=
  ops.foldl (fun s op => applyOp full op s) initState

/-- The reveal states named by the specification. -/
inductive RevealState where
  | idle
  | streaming
  | paused
  | complete
  deriving DecidableEq, Repr

/-- The state names of the specification mapped onto the observable flags of
the hook, following the UI of `App.tsx` (the Resume button is shown whenever
`isPaused`, the Pause button whenever `isStreaming && !isPaused`) and the
fact that a completed engine differs from an idle one only in the revealed
length equalling the document length. -/
def derivedState (full : String) (s : EngineState) : RevealState :=
  if s.isPaused then .paused
  else if s.isStreaming then .streaming
  else if s.index = full.length ∧ full.length ≠ 0 then .complete
  else .idle

end StreamingText

section EngineSanity

open StreamingText

example : (start initState).index = 0 := by decide
example : (tick "ab" 1 (start initState)).index = 2 := by decide
example : (tick "ab" 1 (start initState)).isStreaming = true := by decide
example : (tick "ab" 1 (start initState)).streamedText = "ab" := by decide
example : (tick "ab" 0 (tick "ab" 1 (start initState))).isStreaming = false := by decide
example : derivedState "ab" (pause initState) = .paused := by decide
example : progress "ab" (start initState) = 0 := by
  norm_num [progress, start, stop, initState]
example : progress "a" (tick "a" 0 (start initState)) = 100 := by
  have h : "a".length = 1 := rfl
  norm_num [progress, tick, start, stop, initState, h]

end EngineSanity

namespace MDCRender

/-!
The `MDCNode` interface of `mdc-parser.ts`, together with the extra fields
`depth`, `lang`, `url` and `ordered` that `renderNode` reads through casts.
Every field except `type` is optional. The recursive `children` field is
defunctionalised into the mutual types `MDCChildren` (either absent or an
array) and `MDCNodes` (the array itself) so that all recursion over the AST
is plain structural recursion.
-/

mutual

inductive MDCNode : Type where
  | mk (type : String) (name : Option String) (value : Option String)
      (children : MDCChildren) (attributes : Option (List (String × String)))
      (depth : Option Nat) (lang : Option String) (url : Option String)
      (ordered : Option Bool) : MDCNode

inductive MDCChildren : Type where
  | undef : MDCChildren
  | arr (cs : MDCNodes) : MDCChildren

inductive MDCNodes : Type where
  | nil : MDCNodes
  | cons (c : MDCNode) (cs : MDCNodes) : MDCNodes

end

/-- A component registry: lower-cased component name to handler, in source
order. Handlers are identified by their exported name. -/
def Registry : Type := List (String × String)

/-- JavaScript object lookup `customComponents?.[componentName]` over the
registry, first binding wins. -/
def lookupReg : Registry → String → Option String
  | [], _ => Option.none
  | (k, v) :: rest, n => if k = n then some v else lookupReg rest n

/-- The registry `mdcComponents` of `MDCComponents.tsx`. -/
def mdcComponents : Registry :=
  [("alert", "Alert"), ("callout", "Callout"), ("card", "Card"),
   ("badge", "Badge"), ("code-group", "CodeGroup")]

/-!
The output of the render walk. Each constructor records the React element
produced by one branch of `renderNode`, keeping the `key` prop, the props
that branch forwards, and the rendered children. A plain text node is a bare
string with no key; the generic passthrough is a keyless array of children;
`nullOut` is the final `return null`.
-/

mutual

inductive RNode : Type where
  | text (value : Option String) : RNode
  | componentCall (key : String) (handler : String)
      (attrs : List (String × String)) (children : RChildren) : RNode
  | fallback (key : String) (name : Option String) (children : RChildren) : RNode
  | para (key : String) (children : RChildren) : RNode
  | heading (key : String) (level : Nat) (className : Option String)
      (children : RChildren) : RNode
  | codeBlock (key : String) (value : Option String) : RNode
  | inlineCode (key : String) (value : Option String) : RNode
  | strong (key : String) (children : RChildren) : RNode
  | emphasis (key : String) (children : RChildren) : RNode
  | link (key : String) (url : Option String) (children : RChildren) : RNode
  | list (key : String) (ordered : Bool) (children : RChildren) : RNode
  | listItem (key : String) (children : RChildren) : RNode
  | blockquote (key : String) (children : RChildren) : RNode
  | hr (key : String) : RNode
  | passthrough (children : RNodes) : RNode
  | nullOut : RNode

inductive RChildren : Type where
  | undef : RChildren
  | arr (rs : RNodes) : RChildren

inductive RNodes : Type where
  | nil : RNodes
  | cons (r : RNode) (rs : RNodes) : RNodes

end

/-- The heading size lookup table `sizes` of the heading branch. Depths
outside 1..6 have no entry, so indexing yields `undefined`. -/
def sizesTable (d : Nat) : Option String :=
  if d = 1 then some "text-3xl font-bold mb-6"
  else if d = 2 then some "text-2xl font-bold mb-4"
  else if d = 3 then some "text-xl font-semibold mb-3"
  else if d = 4 then some "text-lg font-semibold mb-2"
  else if d = 5 then some "text-base font-semibold mb-2"
  else if d = 6 then some "text-sm font-semibold mb-2"
  else Option.none

/-- The `switch (depth)` of the heading branch: cases 1 to 5 pick that
heading element, everything else falls to the `default` case, `h6`. -/
def headingSwitch (d : Nat) : Nat :=
  if d = 1 ∨ d = 2 ∨ d = 3 ∨ d = 4 ∨ d = 5 then d else 6

/-- The heading depth read `(node as ...).depth || 1`: a missing depth and
the falsy depth 0 both become 1. -/
def jsDepth (d : Option Nat) : Nat :=
  match d with
  | Option.none => 1
  | some n => if n = 0 then 1 else n

/-- JavaScript `.toLowerCase()`: lower-case every character of the string. -/
def jsToLowerCase (s : String) : String :=
  ⟨s.data.map Char.toLower⟩

/-- The component name computation `node.name?.toLowerCase() || ''`: a
missing name gives the empty string, and so does an empty name (falsy). -/
def jsComponentName (name : Option String) : String :=
  (name.map jsToLowerCase).getD ""

/-!
`renderNode` of `MDCRenderer.tsx`, translated branch by branch, returning
`Except String RNode`: a JavaScript exception would surface as an error
value, and exceptions raised while rendering children propagate through the
monadic binds. `renderChildrenE` renders a children array, numbering the
keys from `i` as in `children.map((child, i) => renderNode(child,
customComponents, key ++ "-" ++ i))`; `renderChildrenOptE` is the
optional-chained `node.children?.map(...)`.
-/

mutual

def renderNodeE (reg : Registry) (node : MDCNode) (key : String) :
    Except String RNode :=
  match node with
  | .mk type name value children attrs depth _lang url ordered =>
    if type = "text" then
      .ok (.text value)
    else if type = "containerComponent" ∨ type = "leafComponent" ∨
        type = "textComponent" then
      match lookupReg reg (jsComponentName name) with
      | some h => do
        let rcs ← renderChildrenOptE reg children key
        .ok (.componentCall key h (attrs.getD []) rcs)
      | Option.none => do
        let rcs ← renderChildrenOptE reg children key
        .ok (.fallback key name rcs)
    else if type = "paragraph" then do
      let rcs ← renderChildrenOptE reg children key
      .ok (.para key rcs)
    else if type = "heading" then do
      let d := jsDepth depth
      let rcs ← renderChildrenOptE reg children key
      .ok (.heading key (headingSwitch d) (sizesTable d) rcs)
    else if type = "code" then
      .ok (.codeBlock key value)
    else if type = "inlineCode" then
      .ok (.inlineCode key value)
    else if type = "strong" then do
      let rcs ← renderChildrenOptE reg children key
      .ok (.strong key rcs)
    else if type = "emphasis" then do
      let rcs ← renderChildrenOptE reg children key
      .ok (.emphasis key rcs)
    else if type = "link" then do
      let rcs ← renderChildrenOptE reg children key
      .ok (.link key url rcs)
    else if type = "list" then do
      let rcs ← renderChildrenOptE reg children key
      .ok (.list key (ordered.getD false) rcs)
    else if type = "listItem" then do
      let rcs ← renderChildrenOptE reg children key
      .ok (.listItem key rcs)
    else if type = "blockquote" then do
      let rcs ← renderChildrenOptE reg children key
      .ok (.blockquote key rcs)
    else if type = "thematicBreak" then
      .ok (.hr key)
    else
      renderPassthroughE reg children key
termination_by structural node

def renderPassthroughE (reg : Registry) (ch : MDCChildren) (key : String) :
    Except String RNode :=
  match ch with
  | .undef => .ok .nullOut
  | .arr cs => do
    let rs ← renderChildrenE reg cs key 0
    .ok (.passthrough rs)
termination_by structural ch

def renderChildrenOptE (reg : Registry) (ch : MDCChildren) (key : String) :
    Except String RChildren :=
  match ch with
  | .undef => .ok .undef
  | .arr cs => do
    let rs ← renderChildrenE reg cs key 0
    .ok (.arr rs)
termination_by structural ch

def renderChildrenE (reg : Registry) (cs : MDCNodes) (key : String) (i : Nat) :
    Except String RNodes :=
  match cs with
  | .nil => .ok .nil
  | .cons c rest => do
    let r ← renderNodeE reg c (key ++ "-" ++ toString i)
    let rs ← renderChildrenE reg rest key (i + 1)
    .ok (.cons r rs)
termination_by structural cs

end

/-- Unfolding lemma for the render walk at a constructed node. -/
theorem renderNodeE_mk (reg : Registry) (t : String) (nm v : Option String)
    (ch : MDCChildren) (a : Option (List (String × String))) (d : Option Nat)
    (lg u : Option String) (o : Option Bool) (key : String) :
    renderNodeE reg (.mk t nm v ch a d lg u o) key =
      (if t = "text" then
        .ok (.text v)
      else if t = "containerComponent" ∨ t = "leafComponent" ∨
          t = "textComponent" then
        match lookupReg reg (jsComponentName nm) with
        | some h => do
          let rcs ← renderChildrenOptE reg ch key
          .ok (.componentCall key h (a.getD []) rcs)
        | Option.none => do
          let rcs ← renderChildrenOptE reg ch key
          .ok (.fallback key nm rcs)
      else if t = "paragraph" then do
        let rcs ← renderChildrenOptE reg ch key
        .ok (.para key rcs)
      else if t = "heading" then do
        let dd := jsDepth d
        let rcs ← renderChildrenOptE reg ch key
        .ok (.heading key (headingSwitch dd) (sizesTable dd) rcs)
      else if t = "code" then
        .ok (.codeBlock key v)
      else if t = "inlineCode" then
        .ok (.inlineCode key v)
      else if t = "strong" then do
        let rcs ← renderChildrenOptE reg ch key
        .ok (.strong key rcs)
      else if t = "emphasis" then do
        let rcs ← renderChildrenOptE reg ch key
        .ok (.emphasis key rcs)
      else if t = "link" then do
        let rcs ← renderChildrenOptE reg ch key
        .ok (.link key u rcs)
      else if t = "list" then do
        let rcs ← renderChildrenOptE reg ch key
        .ok (.list key (o.getD false) rcs)
      else if t = "listItem" then do
        let rcs ← renderChildrenOptE reg ch key
        .ok (.listItem key rcs)
      else if t = "blockquote" then do
        let rcs ← renderChildrenOptE reg ch key
        .ok (.blockquote key rcs)
      else if t = "thematicBreak" then
        .ok (.hr key)
      else
        renderPassthroughE reg ch key) := rfl

/-- Unfolding lemma: rendering an absent children field. -/
theorem renderChildrenOptE_undef (reg : Registry) (key : String) :
    renderChildrenOptE reg .undef key = .ok .undef := rfl

/-- Unfolding lemma: rendering a present children array. -/
theorem renderChildrenOptE_arr (reg : Registry) (cs : MDCNodes)
    (key : String) :
    renderChildrenOptE reg (.arr cs) key = (do
      let rs ← renderChildrenE reg cs key 0
      .ok (.arr rs)) := rfl

/-- Unfolding lemma: the generic passthrough on an absent children field is
the null output. -/
theorem renderPassthroughE_undef (reg : Registry) (key : String) :
    renderPassthroughE reg .undef key = .ok .nullOut := rfl

/-- Unfolding lemma: the generic passthrough on a present children array
renders the children in sequence with no wrapping element. -/
theorem renderPassthroughE_arr (reg : Registry) (cs : MDCNodes)
    (key : String) :
    renderPassthroughE reg (.arr cs) key = (do
      let rs ← renderChildrenE reg cs key 0
      .ok (.passthrough rs)) := rfl

/-- Unfolding lemma: rendering an empty children array. -/
theorem renderChildrenE_nil (reg : Registry) (key : String) (i : Nat) :
    renderChildrenE reg .nil key i = .ok .nil := rfl

/-- Unfolding lemma: rendering a children array cell, where the child key is
the parent key with the structural index appended. -/
theorem renderChildrenE_cons (reg : Registry) (c : MDCNode) (cs : MDCNodes)
    (key : String) (i : Nat) :
    renderChildrenE reg (.cons c cs) key i = (do
      let r ← renderNodeE reg c (key ++ "-" ++ toString i)
      let rs ← renderChildrenE reg cs key (i + 1)
      .ok (.cons r rs)) := rfl

/-- The root render call of the `MDCRenderer` component:
`renderNode(parsed.body, components, root)` with the literal key string. -/
def renderRoot (reg : Registry) (body : MDCNode) : Except String RNode :=
  renderNodeE reg body "root"

end MDCRender

section RenderSanity

open MDCRender

/-- A text node carrying a value. -/
def tText (s : String) : MDCNode :=
  .mk "text" Option.none (some s) .undef Option.none Option.none Option.none
    Option.none Option.none

/-- Children array holding a single node. -/
def one (n : MDCNode) : MDCChildren := .arr (.cons n .nil)

example :
    renderRoot mdcComponents
      (.mk "containerComponent" (some "alert") Option.none (one (tText "Text"))
        (some [("type", "warning")]) Option.none Option.none Option.none
        Option.none) =
    .ok (.componentCall "root" "Alert" [("type", "warning")]
      (.arr (.cons (.text (some "Text")) .nil))) := by
  rfl

example :
    renderRoot mdcComponents
      (.mk "containerComponent" (some "widget") Option.none (one (tText "Text"))
        Option.none Option.none Option.none Option.none Option.none) =
    .ok (.fallback "root" (some "widget")
      (.arr (.cons (.text (some "Text")) .nil))) := by
  rfl

example :
    renderRoot mdcComponents
      (.mk "heading" Option.none Option.none (one (tText "Hi")) Option.none
        (some 7) Option.none Option.none Option.none) =
    .ok (.heading "root" 6 Option.none (.arr (.cons (.text (some "Hi")) .nil))) := by
  rfl

example :
    renderRoot mdcComponents
      (.mk "mystery" Option.none Option.none .undef Option.none Option.none
        Option.none Option.none Option.none) = .ok .nullOut := by
  rfl

end RenderSanity

namespace StreamingText

/-- Any single tick leaves the revealed index unchanged or advances it. -/
theorem tick_index_mono (full : String) (r : Nat) (s : EngineState) :
    s.index ≤ (tick full r s).index := by
  unfold tick
  split
  · split
    · simp; omega
    · simp [stop]
  · exact Nat.le_refl _

/-- One operation preserves the upper bound on the revealed index. -/
theorem applyOp_index_le (full : String) (op : Op) (s : EngineState)
    (h : s.index ≤ full.length) : (applyOp full op s).index ≤ full.length := by
  cases op with
  | start => simp [applyOp, start, stop]
  | pause => simpa [applyOp, pause] using h
  | resume =>
    simp only [applyOp, resume]
    split
    · simpa using h
    · exact h
  | reset => simp [applyOp, reset, stop]
  | complete => simp [applyOp, complete, stop]
  | tick r =>
    simp only [applyOp, tick]
    split
    · split
      · simp
      · simpa [stop] using h
    · exact h

/-- One operation preserves the scheduling invariant: whenever an interval
is scheduled, the paused flag is down. -/
theorem applyOp_inv (full : String) (op : Op) (s : EngineState)
    (h : s.intervalActive = true → s.isPaused = false) :
    (applyOp full op s).intervalActive = true →
      (applyOp full op s).isPaused = false := by
  cases op with
  | start => simp [applyOp, start, stop]
  | pause => simp [applyOp, pause]
  | resume =>
    simp only [applyOp, resume]
    split
    · simp
    · exact h
  | reset => simp [applyOp, reset, stop]
  | complete => simp [applyOp, complete, stop]
  | tick r =>
    simp only [applyOp, tick]
    split
    · next hact =>
      split
      · exact fun _ => h hact
      · simp [stop]
    · exact h

/-- Folding operations keeps both invariants. -/
theorem foldl_invariants (full : String) (ops : List Op) :
    ∀ s : EngineState, s.index ≤ full.length →
      (s.intervalActive = true → s.isPaused = false) →
      (ops.foldl (fun s op => applyOp full op s) s).index ≤ full.length ∧
      ((ops.foldl (fun s op => applyOp full op s) s).intervalActive = true →
        (ops.foldl (fun s op => applyOp full op s) s).isPaused = false) := by
  induction ops with
  | nil => intro s h1 h2; exact ⟨h1, h2⟩
  | cons op rest ih =>
    intro s h1 h2
    exact ih (applyOp full op s)
      (applyOp_index_le full op s h1) (applyOp_inv full op s h2)

theorem run_index_le (full : String) (ops : List Op) :
    (run full ops).index ≤ full.length :=
  (foldl_invariants full ops initState (by simp [initState]) (by simp [initState])).1

theorem run_sched_inv (full : String) (ops : List Op) :
    (run full ops).intervalActive = true → (run full ops).isPaused = false :=
  (foldl_invariants full ops initState (by simp [initState]) (by simp [initState])).2

end StreamingText

open StreamingText in
/-- C1 (counterexample): on the tick whose clamped result equals the document
length, the engine does not auto-transition to Complete and does not stop
ticking. With the two-character document "ab", starting and then ticking
once with chunk size 2 brings the revealed index to the full length, yet the
engine is still flagged as streaming with the interval still scheduled, and
the next tick still fires and changes the state (it is the one that stops). -/
theorem C1_counterexample :
    (tick "ab" 1 (start initState)).index = ("ab").length ∧
    (tick "ab" 1 (start initState)).isStreaming = true ∧
    (tick "ab" 1 (start initState)).intervalActive = true ∧
    derivedState "ab" (tick "ab" 1 (start initState)) ≠ RevealState.complete ∧
    tick "ab" 0 (tick "ab" 1 (start initState)) ≠ tick "ab" 1 (start initState) := by
  decide

open StreamingText in
/-- C1 (amended): each tick taken while the revealed index is below the
document length advances it by a chunk size in one to three characters,
clamped so it never exceeds the document length, and leaves the streaming
flag and the schedule untouched, even on the tick whose clamped result
equals the document length; the stop happens on the following tick: a tick
fired with the index at or past the end calls stop, which lowers the flags
and cancels the interval while preserving the index, after which further
ticks are no-ops. -/
theorem C1_tick_amended (full : String) (s : EngineState) (r : Nat)
    (hact : s.intervalActive = true) :
    (s.index < full.length →
      (tick full r s).index = min (s.index + (r % 3 + 1)) full.length ∧
      1 ≤ r % 3 + 1 ∧ r % 3 + 1 ≤ 3 ∧
      (tick full r s).isStreaming = s.isStreaming ∧
      (tick full r s).isPaused = s.isPaused ∧
      (tick full r s).intervalActive = true ∧
      (tick full r s).streamedText =
        full.take (min (s.index + (r % 3 + 1)) full.length)) ∧
    (full.length ≤ s.index →
      tick full r s = stop s ∧ (stop s).isStreaming = false ∧
      (stop s).isPaused = false ∧ (stop s).intervalActive = false ∧
      (stop s).index = s.index ∧ ∀ r2, tick full r2 (stop s) = stop s) := by
  constructor
  · intro hlt
    refine ⟨?_, by omega, by omega, ?_, ?_, ?_, ?_⟩ <;>
      simp [tick, hact, hlt]
  · intro hge
    have hnlt : ¬ s.index < full.length := by omega
    refine ⟨by simp [tick, hact, hnlt], by simp [stop], by simp [stop],
      by simp [stop], by simp [stop], ?_⟩
    intro r2
    simp [tick, stop]

open StreamingText in
/-- C1 (witness): the amended tick behaviour evaluated on concrete runs: a
fresh three-character stream advanced by a clamped chunk, and a stream whose
index has reached the end of a one-character document being stopped by the
next tick. -/
theorem C1_tick_amended_witness :
    (tick "abc" 4 (start initState)).index =
      min ((start initState).index + (4 % 3 + 1)) ("abc").length ∧
    tick "a" 2 (tick "a" 0 (start initState)) =
      stop (tick "a" 0 (start initState)) :=
  ⟨((C1_tick_amended "abc" (start initState) 4 (by decide)).1 (by decide)).1,
   ((C1_tick_amended "a" (tick "a" 0 (start initState)) 2 (by decide)).2
      (by decide)).1⟩

open StreamingText in
/-- C5 (counterexample): pause called from the Idle state is not a no-op: it
raises the paused flag, so the derived state changes from Idle to Paused and
the hook state is observably different. -/
theorem C5_counterexample :
    derivedState "ab" initState = RevealState.idle ∧
    derivedState "ab" (pause initState) = RevealState.paused ∧
    pause initState ≠ initState := by
  decide

open StreamingText in
/-- C5 (amended): pause always cancels any scheduled tick and raises the
paused flag while preserving the revealed index, the revealed text, and the
streaming flag; from Streaming this is the Streaming-to-Paused transition
that preserves the revealed length, but from Idle or Complete it is not a
no-op, because the engine afterwards presents itself as Paused. -/
theorem C5_pause_amended (full : String) (s : EngineState) :
    (pause s).index = s.index ∧
    (pause s).streamedText = s.streamedText ∧
    (pause s).intervalActive = false ∧
    (pause s).isPaused = true ∧
    (pause s).isStreaming = s.isStreaming ∧
    derivedState full (pause s) = RevealState.paused := by
  simp [pause, derivedState]

open StreamingText in
/-- C7: over every document and every operation sequence from the initial
state, the revealed index stays within the document bounds, a tick taken
while streaming never decreases it, and no operation that begins and ends
with the engine paused changes it. -/
theorem C7_revealed_length_invariants (full : String) (ops : List Op) :
    (run full ops).index ≤ full.length ∧
    (∀ r, (run full ops).isStreaming = true →
      (run full ops).index ≤ (tick full r (run full ops)).index) ∧
    (∀ op, (run full ops).isPaused = true →
      (applyOp full op (run full ops)).isPaused = true →
      (applyOp full op (run full ops)).index = (run full ops).index) := by
  refine ⟨run_index_le full ops, fun r _ => tick_index_mono full r _, ?_⟩
  intro op hp hp2
  cases op with
  | start => simp [applyOp, start, stop] at hp2
  | pause => simp [applyOp, pause]
  | resume => simp [applyOp, resume, hp] at hp2
  | reset => simp [applyOp, reset, stop] at hp2
  | complete => simp [applyOp, complete, stop] at hp2
  | tick r =>
    have hact : (run full ops).intervalActive = false := by
      by_contra hc
      have := run_sched_inv full ops (by
        cases h : (run full ops).intervalActive
        · exact absurd h hc
        · rfl)
      rw [hp] at this
      exact Bool.true_eq_false.mp this
    simp [applyOp, tick, hact]

open StreamingText in
/-- C7 (witness): the invariants evaluated on the concrete run start, tick,
pause over the two-character document "ab": the index stays within bounds, a
further tick does not decrease it, and pausing again keeps it unchanged. -/
theorem C7_revealed_length_invariants_witness :
    (run "ab" [Op.start, Op.tick 0, Op.pause]).index ≤ ("ab").length ∧
    (run "ab" [Op.start, Op.tick 0, Op.pause]).index ≤
      (tick "ab" 5 (run "ab" [Op.start, Op.tick 0, Op.pause])).index ∧
    (applyOp "ab" Op.pause (run "ab" [Op.start, Op.tick 0, Op.pause])).index =
      (run "ab" [Op.start, Op.tick 0, Op.pause]).index :=
  ⟨(C7_revealed_length_invariants "ab" [Op.start, Op.tick 0, Op.pause]).1,
   (C7_revealed_length_invariants "ab" [Op.start, Op.tick 0, Op.pause]).2.1 5
      (by decide),
   (C7_revealed_length_invariants "ab" [Op.start, Op.tick 0, Op.pause]).2.2
      Op.pause (by decide) (by decide)⟩

open StreamingText in
/-- C8 (counterexample): with the one-character document "a", after start and
one tick the revealed index equals the document length, so progress is 100,
yet the engine is still in the Streaming state, not Complete: progress can be
100 without the engine being Complete. -/
theorem C8_counterexample :
    progress "a" (tick "a" 0 (start initState)) = 100 ∧
    derivedState "a" (tick "a" 0 (start initState)) = RevealState.streaming ∧
    derivedState "a" (tick "a" 0 (start initState)) ≠ RevealState.complete := by
  refine ⟨?_, by decide, by decide⟩
  have h : "a".length = 1 := rfl
  norm_num [progress, tick, start, stop, initState, h]

open StreamingText in
/-- C8 (amended): progress is defined as zero whenever the document is
empty; for a non-empty document it equals the revealed index divided by the
document length times one hundred, and equals one hundred exactly when the
revealed index equals the document length, and the Complete state implies
progress one hundred, but the converse fails because the index can reach
the end while the engine is still Streaming. -/
theorem C8_progress_amended (full : String) (s : EngineState) :
    (full.length = 0 → progress full s = 0) ∧
    (0 < full.length →
      ((progress full s = 100 ↔ s.index = full.length) ∧
       (derivedState full s = RevealState.complete → progress full s = 100) ∧
       progress full s = (s.index : ℚ) / (full.length : ℚ) * 100)) := by
  constructor
  · intro h0
    simp [progress, h0]
  · intro hlen
    have hq : ((full.length : ℚ)) ≠ 0 := Nat.cast_ne_zero.mpr (by omega)
    have hform : progress full s = (s.index : ℚ) / (full.length : ℚ) * 100 := by
      simp [progress, hlen]
    have hiff : progress full s = 100 ↔ s.index = full.length := by
      rw [hform]
      constructor
      · intro h
        rw [div_mul_eq_mul_div, div_eq_iff hq] at h
        have hcast : (s.index : ℚ) = (full.length : ℚ) := by linarith
        exact_mod_cast hcast
      · intro h
        rw [h, div_self hq, one_mul]
    refine ⟨hiff, ?_, hform⟩
    intro hc
    unfold derivedState at hc
    split_ifs at hc with h1 h2 h3
    · exact hiff.mpr h3.1

open StreamingText in
/-- C8 (witness): the amended progress properties evaluated concretely: the
empty-document clause on the empty document, and the non-empty clauses after
an explicit complete on the one-character document "a". -/
theorem C8_progress_amended_witness :
    ("" : String).length = 0 ∧
    progress "" initState = 0 ∧
    0 < ("a").length ∧
    ((progress "a" (complete "a" initState) = 100 ↔
      (complete "a" initState).index = ("a").length) ∧
     (derivedState "a" (complete "a" initState) = RevealState.complete →
      progress "a" (complete "a" initState) = 100) ∧
     progress "a" (complete "a" initState) =
       ((complete "a" initState).index : ℚ) / (("a").length : ℚ) * 100) :=
  ⟨rfl, (C8_progress_amended "" initState).1 rfl, by decide,
   (C8_progress_amended "a" (complete "a" initState)).2 (by decide)⟩

open StreamingText in
/-- C10: after an explicit complete, and after the auto-stop tick that fires
once the revealed index has reached the end, the observable flags are
exactly those of the initial Idle state: not streaming, not paused, no
interval scheduled; the completed condition differs from Idle only in the
revealed index, which equals the document length, and in the revealed text. -/
theorem C10_terminal_flags (full : String) (s : EngineState) (r : Nat) :
    ((complete full s).isStreaming = initState.isStreaming ∧
     (complete full s).isPaused = initState.isPaused ∧
     (complete full s).intervalActive = initState.intervalActive ∧
     (complete full s).index = full.length ∧
     (complete full s).streamedText = full) ∧
    (s.intervalActive = true → full.length ≤ s.index →
      ((tick full r s).isStreaming = initState.isStreaming ∧
       (tick full r s).isPaused = initState.isPaused ∧
       (tick full r s).intervalActive = initState.intervalActive ∧
       (tick full r s).index = s.index)) := by
  constructor
  · simp [complete, stop, initState]
  · intro hact hge
    have hnlt : ¬ s.index < full.length := by omega
    simp [tick, hact, hnlt, stop, initState]

namespace MDCRender

/-- Monadic bind on a failed Except value propagates the error. -/
@[simp] theorem except_bind_error {α β ε : Type} (e : ε) (f : α → Except ε β) :
    ((Except.error e : Except ε α) >>= f) = Except.error e := rfl

/-- Monadic bind on a successful Except value reduces to the continuation. -/
@[simp] theorem except_bind_ok {α β ε : Type} (a : α) (f : α → Except ε β) :
    ((Except.ok a : Except ε α) >>= f) = f a := rfl

theorem sizeOf_children_lt (t : String) (nm v : Option String)
    (ch : MDCChildren) (a : Option (List (String × String))) (d : Option Nat)
    (lg u : Option String) (o : Option Bool) :
    sizeOf ch < sizeOf (MDCNode.mk t nm v ch a d lg u o) := by
  simp <;> omega

theorem sizeOf_arr_lt (cs : MDCNodes) : sizeOf cs < sizeOf (MDCChildren.arr cs) := by
  simp <;> omega

theorem sizeOf_head_lt (c : MDCNode) (cs : MDCNodes) :
    sizeOf c < sizeOf (MDCNodes.cons c cs) := by
  simp <;> omega

theorem sizeOf_tail_lt (c : MDCNode) (cs : MDCNodes) :
    sizeOf cs < sizeOf (MDCNodes.cons c cs) := by
  simp <;> omega

/-- Totality of the render walk, proved by strong induction on the size of
the input: for every node, every optional children field, and every children
array, rendering returns an ok value, never an error. -/
theorem renderE_total_fuel (fuel : Nat) :
    (∀ node : MDCNode, sizeOf node < fuel → ∀ (reg : Registry) (key : String),
      ∃ r, renderNodeE reg node key = Except.ok r) ∧
    (∀ ch : MDCChildren, sizeOf ch < fuel → ∀ (reg : Registry) (key : String),
      ∃ rc, renderChildrenOptE reg ch key = Except.ok rc) ∧
    (∀ cs : MDCNodes, sizeOf cs < fuel → ∀ (reg : Registry) (key : String)
      (i : Nat), ∃ rs, renderChildrenE reg cs key i = Except.ok rs) := by
  induction fuel with
  | zero =>
    exact ⟨fun node h => absurd h (Nat.not_lt_zero _),
      fun ch h => absurd h (Nat.not_lt_zero _),
      fun cs h => absurd h (Nat.not_lt_zero _)⟩
  | succ k ih =>
    refine ⟨?_, ?_, ?_⟩
    · intro node hlt reg key
      cases node with
      | mk t nm v ch a d lg u o =>
        have hchlt : sizeOf ch < k := by
          have h1 := sizeOf_children_lt t nm v ch a d lg u o
          omega
        obtain ⟨rc, hrc⟩ := ih.2.1 ch hchlt reg key
        by_cases h1 : t = "text"
        · refine ⟨.text v, ?_⟩
          simp [renderNodeE_mk, h1]
        by_cases h2 : t = "containerComponent" ∨ t = "leafComponent" ∨
            t = "textComponent"
        · cases hl : lookupReg reg (jsComponentName nm) with
          | none =>
            refine ⟨.fallback key nm rc, ?_⟩
            simp [renderNodeE_mk, h1, h2, hl, hrc]
          | some hh =>
            refine ⟨.componentCall key hh (a.getD []) rc, ?_⟩
            simp [renderNodeE_mk, h1, h2, hl, hrc]
        by_cases h3 : t = "paragraph"
        · refine ⟨.para key rc, ?_⟩
          simp [renderNodeE_mk, h1, h2, h3, hrc]
        by_cases h4 : t = "heading"
        · refine ⟨.heading key (headingSwitch (jsDepth d)) (sizesTable (jsDepth d)) rc, ?_⟩
          simp [renderNodeE_mk, h1, h2, h3, h4, hrc]
        by_cases h5 : t = "code"
        · refine ⟨.codeBlock key v, ?_⟩
          simp [renderNodeE_mk, h1, h2, h3, h4, h5]
        by_cases h6 : t = "inlineCode"
        · refine ⟨.inlineCode key v, ?_⟩
          simp [renderNodeE_mk, h1, h2, h3, h4, h5, h6]
        by_cases h7 : t = "strong"
        · refine ⟨.strong key rc, ?_⟩
          simp [renderNodeE_mk, h1, h2, h3, h4, h5, h6, h7, hrc]
        by_cases h8 : t = "emphasis"
        · refine ⟨.emphasis key rc, ?_⟩
          simp [renderNodeE_mk, h1, h2, h3, h4, h5, h6, h7, h8, hrc]
        by_cases h9 : t = "link"
        · refine ⟨.link key u rc, ?_⟩
          simp [renderNodeE_mk, h1, h2, h3, h4, h5, h6, h7, h8, h9, hrc]
        by_cases h10 : t = "list"
        · refine ⟨.list key (o.getD false) rc, ?_⟩
          simp [renderNodeE_mk, h1, h2, h3, h4, h5, h6, h7, h8, h9, h10, hrc]
        by_cases h11 : t = "listItem"
        · refine ⟨.listItem key rc, ?_⟩
          simp [renderNodeE_mk, h1, h2, h3, h4, h5, h6, h7, h8, h9, h10, h11,
            hrc]
        by_cases h12 : t = "blockquote"
        · refine ⟨.blockquote key rc, ?_⟩
          simp [renderNodeE_mk, h1, h2, h3, h4, h5, h6, h7, h8, h9, h10, h11,
            h12, hrc]
        by_cases h13 : t = "thematicBreak"
        · refine ⟨.hr key, ?_⟩
          simp [renderNodeE_mk, h1, h2, h3, h4, h5, h6, h7, h8, h9, h10, h11,
            h12, h13]
        cases ch with
        | undef =>
          refine ⟨.nullOut, ?_⟩
          simp [renderNodeE_mk, h1, h2, h3, h4, h5, h6, h7, h8, h9, h10, h11,
            h12, h13, renderPassthroughE_undef]
        | arr cs =>
          cases hE : renderChildrenE reg cs key 0 with
          | error e => simp [renderChildrenOptE_arr, hE] at hrc
          | ok rs =>
            refine ⟨.passthrough rs, ?_⟩
            simp [renderNodeE_mk, h1, h2, h3, h4, h5, h6, h7, h8, h9, h10, h11,
              h12, h13, renderPassthroughE_arr, hE]
    · intro ch hlt reg key
      cases ch with
      | undef => exact ⟨.undef, renderChildrenOptE_undef reg key⟩
      | arr cs =>
        have hcs : sizeOf cs < k := by
          have h1 := sizeOf_arr_lt cs
          omega
        obtain ⟨rs, hrs⟩ := ih.2.2 cs hcs reg key 0
        refine ⟨.arr rs, ?_⟩
        simp [renderChildrenOptE_arr, hrs]
    · intro cs hlt reg key i
      cases cs with
      | nil => exact ⟨.nil, renderChildrenE_nil reg key i⟩
      | cons c rest =>
        have hc : sizeOf c < k := by
          have h1 := sizeOf_head_lt c rest
          omega
        have hrest : sizeOf rest < k := by
          have h1 := sizeOf_tail_lt c rest
          omega
        obtain ⟨r, hr⟩ := ih.1 c hc reg (key ++ "-" ++ toString i)
        obtain ⟨rs, hrs⟩ := ih.2.2 rest hrest reg key (i + 1)
        refine ⟨.cons r rs, ?_⟩
        simp [renderChildrenE_cons, hr, hrs]

/-- Totality of the render walk at a single node. -/
theorem renderNodeE_ok (reg : Registry) (node : MDCNode) (key : String) :
    ∃ r, renderNodeE reg node key = Except.ok r :=
  (renderE_total_fuel (sizeOf node + 1)).1 node (by omega) reg key

/-- Totality of the render walk at an optional children field. -/
theorem renderChildrenOptE_ok (reg : Registry) (ch : MDCChildren)
    (key : String) : ∃ rc, renderChildrenOptE reg ch key = Except.ok rc :=
  (renderE_total_fuel (sizeOf ch + 1)).2.1 ch (by omega) reg key

/-- Totality of the render walk at a children array. -/
theorem renderChildrenE_ok (reg : Registry) (cs : MDCNodes) (key : String)
    (i : Nat) : ∃ rs, renderChildrenE reg cs key i = Except.ok rs :=
  (renderE_total_fuel (sizeOf cs + 1)).2.2 cs (by omega) reg key i

end MDCRender

open MDCRender in
/-- C2: the render walk is total: for every AST node shape the parser can
return, whatever registry and key path, rendering produces some ok output
and never raises. All optional fields may be absent and the node type may be
unknown; every such shape is covered by the universally quantified node. -/
theorem C2_render_total (node : MDCNode) (reg : Registry) (key : String) :
    ∃ r, renderNodeE reg node key = Except.ok r :=
  (renderE_total_fuel (sizeOf node + 1)).1 node (by omega) reg key

open MDCRender in
/-- C3: a component node whose lower-cased name has no registry entry
renders to the bordered fallback placeholder that carries the original,
non-lower-cased name together with the rendered children, and that
placeholder is never the empty output. -/
theorem C3_unknown_component_fallback (reg : Registry) (key : String)
    (t : String) (nm v : Option String) (ch : MDCChildren)
    (a : Option (List (String × String))) (d : Option Nat)
    (lg u : Option String) (o : Option Bool)
    (ht : t = "containerComponent" ∨ t = "leafComponent" ∨ t = "textComponent")
    (hlook : lookupReg reg (jsComponentName nm) = Option.none) :
    ∃ rc, renderChildrenOptE reg ch key = Except.ok rc ∧
      renderNodeE reg (.mk t nm v ch a d lg u o) key =
        Except.ok (.fallback key nm rc) ∧
      RNode.fallback key nm rc ≠ RNode.nullOut := by
  obtain ⟨rc, hrc⟩ := renderChildrenOptE_ok reg ch key
  refine ⟨rc, hrc, ?_, by simp⟩
  rcases ht with h | h | h <;> subst h <;> simp [renderNodeE_mk, hlook, hrc]

open MDCRender in
/-- C3 (witness): a container component named widget with a single text
child and the default registry, which has no widget entry, renders to the
fallback placeholder labelled widget around the rendered child. -/
theorem C3_unknown_component_fallback_witness :
    ∃ rc, renderChildrenOptE mdcComponents (one (tText "Text")) "root" =
        Except.ok rc ∧
      renderNodeE mdcComponents
        (.mk "containerComponent" (some "widget") Option.none
          (one (tText "Text")) Option.none Option.none Option.none Option.none
          Option.none) "root" =
        Except.ok (.fallback "root" (some "widget") rc) ∧
      RNode.fallback "root" (some "widget") rc ≠ RNode.nullOut :=
  C3_unknown_component_fallback mdcComponents "root" "containerComponent"
    (some "widget") Option.none (one (tText "Text")) Option.none Option.none
    Option.none Option.none Option.none (Or.inl rfl) (by rfl)

open MDCRender in
/-- C6: a component node whose lower-cased name has a registry entry is
rendered by invoking exactly that handler, with the attributes mapping of
the node passed through verbatim (only defaulted to the empty mapping when
absent, with no coercion, validation, addition or removal of entries) and
the recursively rendered children as child content. -/
theorem C6_registered_component_dispatch (reg : Registry) (key : String)
    (t : String) (nm v : Option String) (ch : MDCChildren)
    (a : Option (List (String × String))) (d : Option Nat)
    (lg u : Option String) (o : Option Bool) (h : String)
    (ht : t = "containerComponent" ∨ t = "leafComponent" ∨ t = "textComponent")
    (hlook : lookupReg reg (jsComponentName nm) = some h) :
    ∃ rcs, renderChildrenOptE reg ch key = Except.ok rcs ∧
      renderNodeE reg (.mk t nm v ch a d lg u o) key =
        Except.ok (.componentCall key h (a.getD []) rcs) := by
  obtain ⟨rcs, hrcs⟩ := renderChildrenOptE_ok reg ch key
  refine ⟨rcs, hrcs, ?_⟩
  rcases ht with hh | hh | hh <;> subst hh <;> simp [renderNodeE_mk, hlook, hrcs]

open MDCRender in
/-- C6 (witness): the spec scenario: an alert component with attribute type
warning and text child, rendered against the default registry, dispatches to
the Alert handler with the attribute mapping passed through verbatim. -/
theorem C6_registered_component_dispatch_witness :
    ∃ rcs, renderChildrenOptE mdcComponents (one (tText "Text")) "root" =
        Except.ok rcs ∧
      renderNodeE mdcComponents
        (.mk "containerComponent" (some "alert") Option.none
          (one (tText "Text")) (some [("type", "warning")]) Option.none
          Option.none Option.none Option.none) "root" =
        Except.ok (.componentCall "root" "Alert"
          ((some [("type", "warning")]).getD []) rcs) :=
  C6_registered_component_dispatch mdcComponents "root" "containerComponent"
    (some "alert") Option.none (one (tText "Text"))
    (some [("type", "warning")]) Option.none Option.none Option.none
    Option.none "Alert" (Or.inl rfl) (by rfl)

open MDCRender in
/-- C9 (counterexample): a heading of depth 7 does not render as size tier
six: the element level falls to the default h6, but the size class lookup
misses the table and yields no class at all, so the output differs from the
depth 6 rendering, which does carry the tier six class. -/
theorem C9_counterexample :
    renderNodeE mdcComponents
      (.mk "heading" Option.none Option.none .undef Option.none (some 7)
        Option.none Option.none Option.none) "k" =
      Except.ok (.heading "k" 6 Option.none .undef) ∧
    renderNodeE mdcComponents
      (.mk "heading" Option.none Option.none .undef Option.none (some 6)
        Option.none Option.none Option.none) "k" =
      Except.ok (.heading "k" 6 (some "text-sm font-semibold mb-2") .undef) ∧
    RNode.heading "k" 6 Option.none .undef ≠
      RNode.heading "k" 6 (some "text-sm font-semibold mb-2") .undef :=
  ⟨rfl, rfl, by simp⟩

open MDCRender in
/-- C9 (amended): the heading branch maps the read depth, with absent and
zero depth defaulting to one, through the fixed six-entry size table and the
level switch; depths one to six hit the table and keep their level, while
depths above six fall to the h6 default of the switch but receive no size
class, because the table lookup yields undefined rather than clamping. -/
theorem C9_heading_mapping (reg : Registry) (key : String)
    (nm v : Option String) (ch : MDCChildren)
    (a : Option (List (String × String))) (d : Option Nat)
    (lg u : Option String) (o : Option Bool) :
    (∃ rc, renderChildrenOptE reg ch key = Except.ok rc ∧
      renderNodeE reg (.mk "heading" nm v ch a d lg u o) key =
        Except.ok (.heading key (headingSwitch (jsDepth d))
          (sizesTable (jsDepth d)) rc)) ∧
    jsDepth Option.none = 1 ∧ jsDepth (some 0) = 1 ∧
    (∀ n, 1 ≤ n → n ≤ 6 →
      (sizesTable n).isSome = true ∧ headingSwitch n = n) ∧
    (∀ n, 7 ≤ n → sizesTable n = Option.none ∧ headingSwitch n = 6) := by
  obtain ⟨rc, hrc⟩ := renderChildrenOptE_ok reg ch key
  refine ⟨⟨rc, hrc, by simp [renderNodeE_mk, hrc]⟩, rfl, rfl, ?_, ?_⟩
  · intro n hn1 hn6
    interval_cases n <;> simp [sizesTable, headingSwitch]
  · intro n hn
    constructor
    · unfold sizesTable
      split_ifs <;> first | rfl | omega
    · unfold headingSwitch
      split_ifs <;> first | rfl | omega

open MDCRender in
/-- C9 (witness): the amended heading behaviour evaluated at a concrete
depth 2 heading with a text child, at the in-range depth 3, and at the
out-of-range depth 7. -/
theorem C9_heading_mapping_witness :
    (∃ rc, renderChildrenOptE mdcComponents (one (tText "Hi")) "root" =
        Except.ok rc ∧
      renderNodeE mdcComponents
        (.mk "heading" Option.none Option.none (one (tText "Hi")) Option.none
          (some 2) Option.none Option.none Option.none) "root" =
        Except.ok (.heading "root" (headingSwitch (jsDepth (some 2)))
          (sizesTable (jsDepth (some 2))) rc)) ∧
    (sizesTable 3).isSome = true ∧ headingSwitch 3 = 3 ∧
    sizesTable 7 = Option.none ∧ headingSwitch 7 = 6 :=
  ⟨(C9_heading_mapping mdcComponents "root" Option.none Option.none
      (one (tText "Hi")) Option.none (some 2) Option.none Option.none
      Option.none).1,
   ((C9_heading_mapping mdcComponents "root" Option.none Option.none
      (one (tText "Hi")) Option.none (some 2) Option.none Option.none
      Option.none).2.2.2.1 3 (by decide) (by decide)).1,
   ((C9_heading_mapping mdcComponents "root" Option.none Option.none
      (one (tText "Hi")) Option.none (some 2) Option.none Option.none
      Option.none).2.2.2.1 3 (by decide) (by decide)).2,
   ((C9_heading_mapping mdcComponents "root" Option.none Option.none
      (one (tText "Hi")) Option.none (some 2) Option.none Option.none
      Option.none).2.2.2.2 7 (by decide)).1,
   ((C9_heading_mapping mdcComponents "root" Option.none Option.none
      (one (tText "Hi")) Option.none (some 2) Option.none Option.none
      Option.none).2.2.2.2 7 (by decide)).2⟩

open StreamingText in
/-- C10 (witness): the terminal flag identities evaluated on the
one-character document "a", both for an explicit complete and for the
auto-stop tick fired after the index reached the end. -/
theorem C10_terminal_flags_witness :
    ((complete "a" (start initState)).isStreaming = initState.isStreaming ∧
     (complete "a" (start initState)).isPaused = initState.isPaused ∧
     (complete "a" (start initState)).intervalActive = initState.intervalActive ∧
     (complete "a" (start initState)).index = ("a").length ∧
     (complete "a" (start initState)).streamedText = "a") ∧
    ((tick "a" 3 (tick "a" 0 (start initState))).isStreaming = initState.isStreaming ∧
     (tick "a" 3 (tick "a" 0 (start initState))).isPaused = initState.isPaused ∧
     (tick "a" 3 (tick "a" 0 (start initState))).intervalActive = initState.intervalActive ∧
     (tick "a" 3 (tick "a" 0 (start initState))).index =
       (tick "a" 0 (start initState)).index) :=
  ⟨(C10_terminal_flags "a" (start initState) 3).1,
   (C10_terminal_flags "a" (tick "a" 0 (start initState)) 3).2
      (by decide) (by decide)⟩

namespace MDCRender

/-!
Key observation layer for the render output. `RNode.keysOf` collects, in
order, the key prop of every keyed element in a render tree (text nodes and
the generic passthrough produce no keyed element of their own, and the null
output produces nothing). The extension relation `nodeExtends` formalises
one AST having the same structural shape as another up to its own extent:
same node type, same name, and the children of the first a prefix of the
children of the second with each common child again an extension.
-/

mutual

def RNode.keysOf (r : RNode) : List String :=
  match r with
  | .text _ => []
  | .componentCall k _ _ ch => k :: ch.keysOf
  | .fallback k _ ch => k :: ch.keysOf
  | .para k ch => k :: ch.keysOf
  | .heading k _ _ ch => k :: ch.keysOf
  | .codeBlock k _ => [k]
  | .inlineCode k _ => [k]
  | .strong k ch => k :: ch.keysOf
  | .emphasis k ch => k :: ch.keysOf
  | .link k _ ch => k :: ch.keysOf
  | .list k _ ch => k :: ch.keysOf
  | .listItem k ch => k :: ch.keysOf
  | .blockquote k ch => k :: ch.keysOf
  | .hr k => [k]
  | .passthrough rs => rs.keysOf
  | .nullOut => []
termination_by structural r

def RChildren.keysOf (ch : RChildren) : List String :=
  match ch with
  | .undef => []
  | .arr rs => rs.keysOf
termination_by structural ch

def RNodes.keysOf (rs : RNodes) : List String :=
  match rs with
  | .nil => []
  | .cons r rest => r.keysOf ++ rest.keysOf
termination_by structural rs

end

@[simp] theorem keysOf_text (v : Option String) :
    (RNode.text v).keysOf = [] := rfl
@[simp] theorem keysOf_componentCall (k h : String)
    (a : List (String × String)) (ch : RChildren) :
    (RNode.componentCall k h a ch).keysOf = k :: ch.keysOf := rfl
@[simp] theorem keysOf_fallback (k : String) (nm : Option String)
    (ch : RChildren) : (RNode.fallback k nm ch).keysOf = k :: ch.keysOf := rfl
@[simp] theorem keysOf_para (k : String) (ch : RChildren) :
    (RNode.para k ch).keysOf = k :: ch.keysOf := rfl
@[simp] theorem keysOf_heading (k : String) (lv : Nat) (cl : Option String)
    (ch : RChildren) : (RNode.heading k lv cl ch).keysOf = k :: ch.keysOf := rfl
@[simp] theorem keysOf_codeBlock (k : String) (v : Option String) :
    (RNode.codeBlock k v).keysOf = [k] := rfl
@[simp] theorem keysOf_inlineCode (k : String) (v : Option String) :
    (RNode.inlineCode k v).keysOf = [k] := rfl
@[simp] theorem keysOf_strong (k : String) (ch : RChildren) :
    (RNode.strong k ch).keysOf = k :: ch.keysOf := rfl
@[simp] theorem keysOf_emphasis (k : String) (ch : RChildren) :
    (RNode.emphasis k ch).keysOf = k :: ch.keysOf := rfl
@[simp] theorem keysOf_link (k : String) (u : Option String) (ch : RChildren) :
    (RNode.link k u ch).keysOf = k :: ch.keysOf := rfl
@[simp] theorem keysOf_list (k : String) (b : Bool) (ch : RChildren) :
    (RNode.list k b ch).keysOf = k :: ch.keysOf := rfl
@[simp] theorem keysOf_listItem (k : String) (ch : RChildren) :
    (RNode.listItem k ch).keysOf = k :: ch.keysOf := rfl
@[simp] theorem keysOf_blockquote (k : String) (ch : RChildren) :
    (RNode.blockquote k ch).keysOf = k :: ch.keysOf := rfl
@[simp] theorem keysOf_hr (k : String) : (RNode.hr k).keysOf = [k] := rfl
@[simp] theorem keysOf_passthrough (rs : RNodes) :
    (RNode.passthrough rs).keysOf = rs.keysOf := rfl
@[simp] theorem keysOf_nullOut : (RNode.nullOut).keysOf = [] := rfl
@[simp] theorem keysOf_undef : (RChildren.undef).keysOf = [] := rfl
@[simp] theorem keysOf_arr (rs : RNodes) :
    (RChildren.arr rs).keysOf = rs.keysOf := rfl
@[simp] theorem keysOf_nil : (RNodes.nil).keysOf = [] := rfl
@[simp] theorem keysOf_cons (r : RNode) (rs : RNodes) :
    (RNodes.cons r rs).keysOf = r.keysOf ++ rs.keysOf := rfl

/-- Keys produced when rendering one node at a given key path. -/
def nodeRenderKeys (reg : Registry) (key : String) (n : MDCNode) :
    List String :=
  match renderNodeE reg n key with
  | .ok r => r.keysOf
  | .error _ => []

/-- Keys produced when rendering an optional children field. -/
def childrenRenderKeys (reg : Registry) (key : String) (ch : MDCChildren) :
    List String :=
  match renderChildrenOptE reg ch key with
  | .ok rc => rc.keysOf
  | .error _ => []

/-- Keys produced when rendering a children array, numbering from `i`. -/
def nodesRenderKeys (reg : Registry) (key : String) (i : Nat)
    (cs : MDCNodes) : List String :=
  match renderChildrenE reg cs key i with
  | .ok rs => rs.keysOf
  | .error _ => []

/-- Keys produced by the generic passthrough of the default branch. -/
def passRenderKeys (reg : Registry) (key : String) (ch : MDCChildren) :
    List String :=
  match renderPassthroughE reg ch key with
  | .ok r => r.keysOf
  | .error _ => []

/-- Keys produced by the root render call, whose key path is the literal
string root, as in the MDCRenderer component. -/
def rootRenderKeys (reg : Registry) (n : MDCNode) : List String :=
  nodeRenderKeys reg "root" n

theorem childrenRenderKeys_undef (reg : Registry) (key : String) :
    childrenRenderKeys reg key .undef = [] := by
  simp [childrenRenderKeys, renderChildrenOptE_undef]

theorem childrenRenderKeys_arr (reg : Registry) (key : String)
    (cs : MDCNodes) :
    childrenRenderKeys reg key (.arr cs) = nodesRenderKeys reg key 0 cs := by
  obtain ⟨rs, hrs⟩ := renderChildrenE_ok reg cs key 0
  simp [childrenRenderKeys, renderChildrenOptE_arr, hrs, nodesRenderKeys]

theorem passRenderKeys_undef (reg : Registry) (key : String) :
    passRenderKeys reg key .undef = [] := by
  simp [passRenderKeys, renderPassthroughE_undef]

theorem passRenderKeys_arr (reg : Registry) (key : String) (cs : MDCNodes) :
    passRenderKeys reg key (.arr cs) = nodesRenderKeys reg key 0 cs := by
  obtain ⟨rs, hrs⟩ := renderChildrenE_ok reg cs key 0
  simp [passRenderKeys, renderPassthroughE_arr, hrs, nodesRenderKeys]

theorem nodesRenderKeys_nil (reg : Registry) (key : String) (i : Nat) :
    nodesRenderKeys reg key i .nil = [] := by
  simp [nodesRenderKeys, renderChildrenE_nil]

theorem nodesRenderKeys_cons (reg : Registry) (key : String) (i : Nat)
    (c : MDCNode) (cs : MDCNodes) :
    nodesRenderKeys reg key i (.cons c cs) =
      nodeRenderKeys reg (key ++ "-" ++ toString i) c ++
        nodesRenderKeys reg key (i + 1) cs := by
  obtain ⟨r, hr⟩ := renderNodeE_ok reg c (key ++ "-" ++ toString i)
  obtain ⟨rs, hrs⟩ := renderChildrenE_ok reg cs key (i + 1)
  simp [nodesRenderKeys, renderChildrenE_cons, hr, hrs, nodeRenderKeys]

/-- The shape of the key list produced by one node, as a function of the
node type, the key path, the keys of the rendered children, and the keys of
the generic passthrough. -/
def keysShape (t key : String) (childKeys pKeys : List String) :
    List String :=
  if t = "text" then []
  else if t = "containerComponent" ∨ t = "leafComponent" ∨
      t = "textComponent" then key :: childKeys
  else if t = "paragraph" then key :: childKeys
  else if t = "heading" then key :: childKeys
  else if t = "code" then [key]
  else if t = "inlineCode" then [key]
  else if t = "strong" then key :: childKeys
  else if t = "emphasis" then key :: childKeys
  else if t = "link" then key :: childKeys
  else if t = "list" then key :: childKeys
  else if t = "listItem" then key :: childKeys
  else if t = "blockquote" then key :: childKeys
  else if t = "thematicBreak" then [key]
  else pKeys

/-- The key shape is monotone in the children and passthrough key lists. -/
theorem keysShape_mono (t key : String) {x1 x2 p1 p2 : List String}
    (hx : x1 ⊆ x2) (hp : p1 ⊆ p2) :
    keysShape t key x1 p1 ⊆ keysShape t key x2 p2 := by
  unfold keysShape
  by_cases h1 : t = "text"
  · simp only [if_pos h1]
    exact List.Subset.refl _
  simp only [if_neg h1]
  by_cases h2 : t = "containerComponent" ∨ t = "leafComponent" ∨ t = "textComponent"
  · simp only [if_pos h2]
    exact List.cons_subset_cons _ hx
  simp only [if_neg h2]
  by_cases h3 : t = "paragraph"
  · simp only [if_pos h3]
    exact List.cons_subset_cons _ hx
  simp only [if_neg h3]
  by_cases h4 : t = "heading"
  · simp only [if_pos h4]
    exact List.cons_subset_cons _ hx
  simp only [if_neg h4]
  by_cases h5 : t = "code"
  · simp only [if_pos h5]
    exact List.Subset.refl _
  simp only [if_neg h5]
  by_cases h6 : t = "inlineCode"
  · simp only [if_pos h6]
    exact List.Subset.refl _
  simp only [if_neg h6]
  by_cases h7 : t = "strong"
  · simp only [if_pos h7]
    exact List.cons_subset_cons _ hx
  simp only [if_neg h7]
  by_cases h8 : t = "emphasis"
  · simp only [if_pos h8]
    exact List.cons_subset_cons _ hx
  simp only [if_neg h8]
  by_cases h9 : t = "link"
  · simp only [if_pos h9]
    exact List.cons_subset_cons _ hx
  simp only [if_neg h9]
  by_cases h10 : t = "list"
  · simp only [if_pos h10]
    exact List.cons_subset_cons _ hx
  simp only [if_neg h10]
  by_cases h11 : t = "listItem"
  · simp only [if_pos h11]
    exact List.cons_subset_cons _ hx
  simp only [if_neg h11]
  by_cases h12 : t = "blockquote"
  · simp only [if_pos h12]
    exact List.cons_subset_cons _ hx
  simp only [if_neg h12]
  by_cases h13 : t = "thematicBreak"
  · simp only [if_pos h13]
    exact List.Subset.refl _
  simp only [if_neg h13]
  exact hp

/-- Branch-by-branch characterisation of the keys produced by one node. -/
theorem nodeRenderKeys_mk (reg : Registry) (key : String) (t : String)
    (nm v : Option String) (ch : MDCChildren)
    (a : Option (List (String × String))) (d : Option Nat)
    (lg u : Option String) (o : Option Bool) :
    nodeRenderKeys reg key (.mk t nm v ch a d lg u o) =
      keysShape t key (childrenRenderKeys reg key ch)
        (passRenderKeys reg key ch) := by
  obtain ⟨rc, hrc⟩ := renderChildrenOptE_ok reg ch key
  have hck : childrenRenderKeys reg key ch = rc.keysOf := by
    simp [childrenRenderKeys, hrc]
  by_cases h1 : t = "text"
  · simp [nodeRenderKeys, renderNodeE_mk, keysShape, h1]
  by_cases h2 : t = "containerComponent" ∨ t = "leafComponent" ∨
      t = "textComponent"
  · cases hl : lookupReg reg (jsComponentName nm) with
    | none => simp [nodeRenderKeys, renderNodeE_mk, keysShape, h1, h2, hl, hrc, hck]
    | some hh => simp [nodeRenderKeys, renderNodeE_mk, keysShape, h1, h2, hl, hrc, hck]
  by_cases h3 : t = "paragraph"
  · simp [nodeRenderKeys, renderNodeE_mk, keysShape, h1, h2, h3, hrc, hck]
  by_cases h4 : t = "heading"
  · simp [nodeRenderKeys, renderNodeE_mk, keysShape, h1, h2, h3, h4, hrc, hck]
  by_cases h5 : t = "code"
  · simp [nodeRenderKeys, renderNodeE_mk, keysShape, h1, h2, h3, h4, h5]
  by_cases h6 : t = "inlineCode"
  · simp [nodeRenderKeys, renderNodeE_mk, keysShape, h1, h2, h3, h4, h5, h6]
  by_cases h7 : t = "strong"
  · simp [nodeRenderKeys, renderNodeE_mk, keysShape, h1, h2, h3, h4, h5, h6, h7, hrc,
      hck]
  by_cases h8 : t = "emphasis"
  · simp [nodeRenderKeys, renderNodeE_mk, keysShape, h1, h2, h3, h4, h5, h6, h7, h8,
      hrc, hck]
  by_cases h9 : t = "link"
  · simp [nodeRenderKeys, renderNodeE_mk, keysShape, h1, h2, h3, h4, h5, h6, h7, h8,
      h9, hrc, hck]
  by_cases h10 : t = "list"
  · simp [nodeRenderKeys, renderNodeE_mk, keysShape, h1, h2, h3, h4, h5, h6, h7, h8,
      h9, h10, hrc, hck]
  by_cases h11 : t = "listItem"
  · simp [nodeRenderKeys, renderNodeE_mk, keysShape, h1, h2, h3, h4, h5, h6, h7, h8,
      h9, h10, h11, hrc, hck]
  by_cases h12 : t = "blockquote"
  · simp [nodeRenderKeys, renderNodeE_mk, keysShape, h1, h2, h3, h4, h5, h6, h7, h8,
      h9, h10, h11, h12, hrc, hck]
  by_cases h13 : t = "thematicBreak"
  · simp [nodeRenderKeys, renderNodeE_mk, keysShape, h1, h2, h3, h4, h5, h6, h7, h8,
      h9, h10, h11, h12, h13]
  · simp [nodeRenderKeys, renderNodeE_mk, keysShape, h1, h2, h3, h4, h5, h6, h7, h8,
      h9, h10, h11, h12, h13, passRenderKeys]

mutual

def nodeExtends (x y : MDCNode) : Bool :=
  match x, y with
  | .mk t1 n1 _ c1 _ _ _ _ _, .mk t2 n2 _ c2 _ _ _ _ _ =>
    (t1 == t2) && (n1 == n2) && childExtends c1 c2
termination_by structural x

def childExtends (x y : MDCChildren) : Bool :=
  match x, y with
  | .undef, _ => true
  | .arr _, .undef => false
  | .arr cs1, .arr cs2 => nodesExtend cs1 cs2
termination_by structural x

def nodesExtend (x y : MDCNodes) : Bool :=
  match x, y with
  | .nil, _ => true
  | .cons _ _, .nil => false
  | .cons c1 cs1, .cons c2 cs2 => nodeExtends c1 c2 && nodesExtend cs1 cs2
termination_by structural x

end

@[simp] theorem nodeExtends_mk (t1 t2 : String) (n1 n2 v1 v2 : Option String)
    (c1 c2 : MDCChildren) (a1 a2 : Option (List (String × String)))
    (d1 d2 : Option Nat) (l1 l2 u1 u2 : Option String) (o1 o2 : Option Bool) :
    nodeExtends (.mk t1 n1 v1 c1 a1 d1 l1 u1 o1)
        (.mk t2 n2 v2 c2 a2 d2 l2 u2 o2) =
      ((t1 == t2) && (n1 == n2) && childExtends c1 c2) := rfl

@[simp] theorem childExtends_undef (y : MDCChildren) :
    childExtends .undef y = true := rfl
@[simp] theorem childExtends_arr_undef (cs : MDCNodes) :
    childExtends (.arr cs) .undef = false := rfl
@[simp] theorem childExtends_arr_arr (cs1 cs2 : MDCNodes) :
    childExtends (.arr cs1) (.arr cs2) = nodesExtend cs1 cs2 := rfl
@[simp] theorem nodesExtend_nil (y : MDCNodes) :
    nodesExtend .nil y = true := rfl
@[simp] theorem nodesExtend_cons_nil (c : MDCNode) (cs : MDCNodes) :
    nodesExtend (.cons c cs) .nil = false := rfl
@[simp] theorem nodesExtend_cons_cons (c1 c2 : MDCNode)
    (cs1 cs2 : MDCNodes) :
    nodesExtend (.cons c1 cs1) (.cons c2 cs2) =
      (nodeExtends c1 c2 && nodesExtend cs1 cs2) := rfl

theorem list_append_subset {α : Type} {a1 a2 b1 b2 : List α}
    (h1 : a1 ⊆ a2) (h2 : b1 ⊆ b2) : a1 ++ b1 ⊆ a2 ++ b2 := by
  intro x hx
  rcases List.mem_append.mp hx with h | h
  · exact List.mem_append.mpr (Or.inl (h1 h))
  · exact List.mem_append.mpr (Or.inr (h2 h))

set_option maxHeartbeats 1600000 in
/-- Key stability under structural extension, by strong induction on the
size of the smaller tree: the keys rendered from a tree are a subset of the
keys rendered from any structural extension of it, at every key path. -/
theorem keys_subset_fuel (fuel : Nat) :
    (∀ n1 : MDCNode, sizeOf n1 < fuel → ∀ (n2 : MDCNode) (reg : Registry)
      (key : String), nodeExtends n1 n2 = true →
      nodeRenderKeys reg key n1 ⊆ nodeRenderKeys reg key n2) ∧
    (∀ ch1 : MDCChildren, sizeOf ch1 < fuel → ∀ (ch2 : MDCChildren)
      (reg : Registry) (key : String), childExtends ch1 ch2 = true →
      childrenRenderKeys reg key ch1 ⊆ childrenRenderKeys reg key ch2 ∧
      passRenderKeys reg key ch1 ⊆ passRenderKeys reg key ch2) ∧
    (∀ cs1 : MDCNodes, sizeOf cs1 < fuel → ∀ (cs2 : MDCNodes)
      (reg : Registry) (key : String) (i : Nat), nodesExtend cs1 cs2 = true →
      nodesRenderKeys reg key i cs1 ⊆ nodesRenderKeys reg key i cs2) := by
  induction fuel with
  | zero =>
    exact ⟨fun n1 h => absurd h (Nat.not_lt_zero _),
      fun ch1 h => absurd h (Nat.not_lt_zero _),
      fun cs1 h => absurd h (Nat.not_lt_zero _)⟩
  | succ k ih =>
    refine ⟨?_, ?_, ?_⟩
    · intro n1 hlt n2 reg key hext
      cases n1 with
      | mk t1 nm1 v1 c1 a1 d1 l1 u1 o1 =>
        cases n2 with
        | mk t2 nm2 v2 c2 a2 d2 l2 u2 o2 =>
          rw [nodeExtends_mk] at hext
          simp only [Bool.and_eq_true, beq_iff_eq] at hext
          obtain ⟨⟨ht, _⟩, hch⟩ := hext
          subst ht
          have hc1 : sizeOf c1 < k := by
            have hx := sizeOf_children_lt t1 nm1 v1 c1 a1 d1 l1 u1 o1
            omega
          have hsub := ih.2.1 c1 hc1 c2 reg key hch
          rw [nodeRenderKeys_mk, nodeRenderKeys_mk]
          exact keysShape_mono t1 key hsub.1 hsub.2
    · intro ch1 hlt ch2 reg key hext
      cases ch1 with
      | undef =>
        constructor
        · rw [childrenRenderKeys_undef]
          exact List.nil_subset _
        · rw [passRenderKeys_undef]
          exact List.nil_subset _
      | arr cs1 =>
        cases ch2 with
        | undef => simp at hext
        | arr cs2 =>
          rw [childExtends_arr_arr] at hext
          have hcs1 : sizeOf cs1 < k := by
            have hx := sizeOf_arr_lt cs1
            omega
          have hsub := ih.2.2 cs1 hcs1 cs2 reg key 0 hext
          constructor
          · rw [childrenRenderKeys_arr, childrenRenderKeys_arr]
            exact hsub
          · rw [passRenderKeys_arr, passRenderKeys_arr]
            exact hsub
    · intro cs1 hlt cs2 reg key i hext
      cases cs1 with
      | nil =>
        rw [nodesRenderKeys_nil]
        exact List.nil_subset _
      | cons c1 rest1 =>
        cases cs2 with
        | nil => simp at hext
        | cons c2 rest2 =>
          rw [nodesExtend_cons_cons] at hext
          simp only [Bool.and_eq_true] at hext
          obtain ⟨hc, hrest⟩ := hext
          have hc1 : sizeOf c1 < k := by
            have hx := sizeOf_head_lt c1 rest1
            omega
          have hr1 : sizeOf rest1 < k := by
            have hx := sizeOf_tail_lt c1 rest1
            omega
          rw [nodesRenderKeys_cons, nodesRenderKeys_cons]
          exact list_append_subset
            (ih.1 c1 hc1 c2 reg (key ++ "-" ++ toString i) hc)
            (ih.2.2 rest1 hr1 rest2 reg key (i + 1) hrest)

end MDCRender

open MDCRender in
/-- C4: the render walk keys every rendered element by its structural path,
appending the structural index of each child to the parent key, with the
root rendered at the literal key root; consequently, whenever one AST
structurally extends another (same node types and names, children extended
pairwise with new children only appended), every key produced when
rendering the smaller tree is also produced, unchanged, when rendering the
larger one. -/
theorem C4_key_stability (reg : Registry) (t1 t2 : MDCNode) :
    (∀ (c : MDCNode) (cs : MDCNodes) (key : String) (i : Nat),
      renderChildrenE reg (.cons c cs) key i = (do
        let r ← renderNodeE reg c (key ++ "-" ++ toString i)
        let rs ← renderChildrenE reg cs key (i + 1)
        Except.ok (.cons r rs))) ∧
    (nodeExtends t1 t2 = true →
      rootRenderKeys reg t1 ⊆ rootRenderKeys reg t2) :=
  ⟨fun c cs key i => renderChildrenE_cons reg c cs key i,
   fun hext =>
    (keys_subset_fuel (sizeOf t1 + 1)).1 t1 (by omega) t2 reg "root" hext⟩

open MDCRender in
/-- C4 (witness): the keys of a one-child paragraph are contained in the
keys of its extension by a longer text child and an extra strong child. -/
theorem C4_key_stability_witness :
    nodeExtends
        (.mk "paragraph" Option.none Option.none
          (.arr (.cons (tText "He") .nil)) Option.none Option.none
          Option.none Option.none Option.none)
        (.mk "paragraph" Option.none Option.none
          (.arr (.cons (tText "Hello")
            (.cons (.mk "strong" Option.none Option.none
              (one (tText "world")) Option.none Option.none Option.none
              Option.none Option.none) .nil))) Option.none Option.none
          Option.none Option.none Option.none) = true ∧
    rootRenderKeys mdcComponents
        (.mk "paragraph" Option.none Option.none
          (.arr (.cons (tText "He") .nil)) Option.none Option.none
          Option.none Option.none Option.none) ⊆
      rootRenderKeys mdcComponents
        (.mk "paragraph" Option.none Option.none
          (.arr (.cons (tText "Hello")
            (.cons (.mk "strong" Option.none Option.none
              (one (tText "world")) Option.none Option.none Option.none
              Option.none Option.none) .nil))) Option.none Option.none
          Option.none Option.none Option.none) :=
  ⟨by rfl,
   (C4_key_stability mdcComponents
      (.mk "paragraph" Option.none Option.none
        (.arr (.cons (tText "He") .nil)) Option.none Option.none
        Option.none Option.none Option.none)
      (.mk "paragraph" Option.none Option.none
        (.arr (.cons (tText "Hello")
          (.cons (.mk "strong" Option.none Option.none
            (one (tText "world")) Option.none Option.none Option.none
            Option.none Option.none) .nil))) Option.none Option.none
        Option.none Option.none Option.none)).2 (by rfl)⟩
